import Mathlib

/-!
Shallow embedding of the schema-reconciling CSV-to-BigQuery loader
(`big_uery_handler.py`) and proofs of the claims the specification makes about it.

Conventions of the embedding:
* Python strings are Lean `String`s; `str.lower()` / `str.upper()` are the
  ASCII case maps `Char.toLower` / `Char.toUpper` applied characterwise
  (the type tags, SQL keywords and file names in scope are ASCII).
* The Python dict `_CAST_TARGETS` is an association list with `dict.get`
  modelled by `List.lookup`; its keys are pairwise distinct.
* BigQuery schemas (`table.schema`) are ordered lists of fields, a field
  being a name plus a type tag, as in `bigquery.SchemaField`.
* Calls issued to the BigQuery client and to the filesystem are recorded as
  explicit operation traces (`BQOp`, `OrchEvent`); a `Bool` flag models
  whether a fallible client call raises, and a raising call aborts the
  Python function at that point, so the trace stops where the exception
  propagates.
-/

namespace BQ

/-- Python `str.lower()` restricted to ASCII: lowercase every character
(`Char.toLower` is exactly the basic-latin lowering). -/
def strLower (s : String) : String := String.mk (s.data.map Char.toLower)

/-- Python `str.upper()` restricted to ASCII: uppercase every character. -/
def strUpper (s : String) : String := String.mk (s.data.map Char.toUpper)

/-- The module-level `_CAST_TARGETS` dict of `big_uery_handler.py`,
in source order: BigQuery type tags mapped to SAFE_CAST targets. -/
def CAST_TARGETS : List (String × String) :=
  [("STRING", "STRING"),
   ("BOOL", "BOOL"),
   ("BOOLEAN", "BOOL"),
   ("INT64", "INT64"),
   ("INTEGER", "INT64"),
   ("FLOAT64", "FLOAT64"),
   ("FLOAT", "FLOAT64"),
   ("NUMERIC", "NUMERIC"),
   ("BIGNUMERIC", "BIGNUMERIC"),
   ("DATE", "DATE"),
   ("DATETIME", "DATETIME"),
   ("TIMESTAMP", "TIMESTAMP"),
   ("TIME", "TIME"),
   ("GEOGRAPHY", "GEOGRAPHY")]

/-- Python `_CAST_TARGETS.get(key)` (no default): dict lookup. -/
def castTargetsGet (key : String) : Option String := List.lookup key CAST_TARGETS

/-- `_safe_cast_expr(staging_alias, col_name, target_type)`: build the SELECT
expression converting `staging_alias.col_name` into `target_type`.
`tgt = _CAST_TARGETS.get(target_type.upper(), "STRING")`; a `STRING` target
uses a hard `CAST`, every other target uses `SAFE_CAST`. -/
def safe_cast_expr (staging_alias col_name target_type : String) : String :=
  let tgt := (castTargetsGet (strUpper target_type)).getD "STRING"
  if tgt = "STRING" then
    "CAST(" ++ staging_alias ++ "." ++ col_name ++ " AS STRING)" ++ (" AS " ++ col_name)
  else
    "SAFE_CAST(" ++ staging_alias ++ "." ++ col_name ++ " AS " ++ tgt ++ ")" ++ (" AS " ++ col_name)

/-- One BigQuery schema field: `bigquery.SchemaField(name, field_type)`. -/
structure SchemaField where
  name : String
  field_type : String
  deriving DecidableEq, Repr

/-- `tgt_cols = [f.name for f in tgt_table.schema]`. -/
def tgt_cols (tgt_schema : List SchemaField) : List String :=
  tgt_schema.map (fun f => f.name)

/-- `tgt_types = {f.name: f.field_type for f in tgt_table.schema}` followed by
`tgt_types[col]`: a dict built by iterated assignment holds, for each name,
the `field_type` of the LAST schema entry with that name.  The `""` default is
unreachable for the names the loop feeds in (they come from the same schema). -/
def tgt_types_get (tgt_schema : List SchemaField) (col : String) : String :=
  (((tgt_schema.filter (fun f => f.name = col)).getLast?).map
    (fun f => f.field_type)).getD ""

/-- `stg_cols_set = {f.name for f in stg_table.schema}`: the set of staging
column names, used only for (exact, case-sensitive) membership tests. -/
def stg_cols_set (stg_schema : List SchemaField) : List String :=
  stg_schema.map (fun f => f.name)

/-- The body of the `for col in tgt_cols` loop in
`_append_via_staging_with_casts`: the expression appended for column `col`. -/
def select_expr_for (tgt_schema : List SchemaField) (stg_names : List String)
    (col : String) : String :=
  let tgt_type := tgt_types_get tgt_schema col
  if col ∈ stg_names then
    safe_cast_expr "stg" col tgt_type
  else
    "CAST(NULL AS " ++ (castTargetsGet (strUpper tgt_type)).getD "STRING" ++ ")"
      ++ (" AS " ++ col)

/-- The `select_exprs` list built by the loop: starts empty, appends one
expression per destination column, in destination-schema order. -/
def select_exprs (tgt_schema : List SchemaField) (stg_names : List String) :
    List String :=
  (tgt_cols tgt_schema).foldl
    (fun acc col => acc ++ [select_expr_for tgt_schema stg_names col]) []

/-- The `insert_sql` f-string: INSERT-SELECT from staging into the target,
with the explicit destination column list and the generated expressions. -/
def insert_sql (target_table_id stg_table_id : String)
    (tgt_schema : List SchemaField) (stg_names : List String) : String :=
  "\n        INSERT INTO `" ++ target_table_id ++ "` ("
    ++ String.intercalate ", " (tgt_cols tgt_schema)
    ++ ")\n        SELECT\n            "
    ++ String.intercalate ",\n            " (select_exprs tgt_schema stg_names)
    ++ "\n        FROM `" ++ stg_table_id ++ "` AS stg\n        "

/-- `staging_table_id = f"{target_table_id}__stg_{datetime.now().strftime(...)}"`:
the disposable staging identity, `stamp` being the formatted timestamp. -/
def staging_table_id (target_table_id stamp : String) : String :=
  target_table_id ++ "__stg_" ++ stamp

/-- One operation issued to the BigQuery client. -/
inductive BQOp where
  | loadTable (table_id : String) (autodetect : Bool) (truncate : Bool)
  | getTable (table_id : String)
  | query (sql : String)
  | deleteTable (table_id : String) (not_found_ok : Bool)
  | updateTable (table_id : String) (changed : List String)
  deriving DecidableEq, Repr

/-- The sequence of client operations issued by
`_append_via_staging_with_casts(file_path, target_table_id)`.
`tgt_schema` / `stg_schema` are the schemas the two `get_table` calls return;
`insert_ok` models whether `client.query(insert_sql).result()` succeeds.
When the INSERT raises, the Python exception propagates immediately, so no
further operation (in particular no `delete_table`) is issued. -/
def append_via_staging_trace (target_table_id stamp : String)
    (tgt_schema stg_schema : List SchemaField) (insert_ok : Bool) : List BQOp :=
  let stg_id := staging_table_id target_table_id stamp
  [BQOp.loadTable stg_id true true,
   BQOp.getTable target_table_id,
   BQOp.getTable stg_id,
   BQOp.query (insert_sql target_table_id stg_id tgt_schema (stg_cols_set stg_schema))]
  ++ (if insert_ok then [BQOp.deleteTable stg_id true] else [])

/-- Does this client operation alter the schema (or existence) of table `t`?
Loading with truncate, updating the schema, and dropping the table do;
metadata fetches do not.  A `query` is DML text; the single query this path
issues is the INSERT-SELECT (a fact proved with the frame claim), which by SQL
semantics modifies rows, never the schema. -/
def alters_schema (op : BQOp) (t : String) : Bool :=
  match op with
  | BQOp.loadTable tbl _ _ => tbl = t
  | BQOp.updateTable tbl _ => tbl = t
  | BQOp.deleteTable tbl _ => tbl = t
  | _ => false

/-- `table_exists`: `get_table` inside `try`, `return True`; any exception
whatsoever is caught by the bare `except Exception` and becomes `False`.
The outcome of the metadata fetch is passed in as an `Except`. -/
def table_exists {ε τ : Type} (fetch : Except ε τ) : Bool :=
  match fetch with
  | Except.ok _ => true
  | Except.error _ => false

/-- `any(f.name == "Ingestion_date" for f in table.schema)`:
exact, case-sensitive comparison against the fixed marker column name. -/
def has_ingestion_date_col (schema : List SchemaField) : Bool :=
  schema.any (fun f => f.name = "Ingestion_date")

/-- Destination table contents for the marker-setter semantics: the schema
plus one row per list entry, a row being its `Ingestion_date` cell (NULL =
`none`) paired with an abstract remainder-of-row. -/
structure TableState where
  schema : List SchemaField
  rows : List (Option String × Nat)
  deriving DecidableEq, Repr

/-- The `query` f-string of `_set_ingestion_date_if_exists`. -/
def update_sql (table_id date_value : String) : String :=
  "\n        UPDATE `" ++ table_id ++ "`\n        SET Ingestion_date = DATE(\x27"
    ++ date_value ++ "\x27)\n        WHERE Ingestion_date IS NULL\n        "

/-- Relational semantics of that UPDATE statement: set the marker cell to the
date wherever it is NULL; every other cell of every row is untouched. -/
def set_ingestion_rows (date_value : String) (rows : List (Option String × Nat)) :
    List (Option String × Nat) :=
  rows.map (fun r => if r.1 = none then (some date_value, r.2) else r)

/-- `_set_ingestion_date_if_exists(table_id, date_value)` as a state map:
if the schema lacks the `Ingestion_date` column the function returns before
issuing any query; otherwise the UPDATE runs. -/
def set_ingestion_date_if_exists (t : TableState) (date_value : String) : TableState :=
  if has_ingestion_date_col t.schema then
    { t with rows := set_ingestion_rows date_value t.rows }
  else t

/-- The client operations `_set_ingestion_date_if_exists` issues: always the
`get_table` metadata fetch; the UPDATE query only when the marker column is
present in the fetched schema. -/
def set_ingestion_date_trace (schema : List SchemaField) (table_id date_value : String) :
    List BQOp :=
  [BQOp.getTable table_id] ++
    (if has_ingestion_date_col schema then
      [BQOp.query (update_sql table_id date_value)]
     else [])

/-- Index of the last `'.'` in the character list, if any
(the rfind step of the CPython splitext, for a basename with no slashes). -/
def lastDotIdx : List Char → Option Nat
  | [] => none
  | c :: cs =>
    match lastDotIdx cs with
    | some i => some (i + 1)
    | none => if c = '.' then some 0 else none

/-- `os.path.splitext(s)[0]` for a plain file name (no path separators):
split at the last dot, except that a name whose characters before that dot
are all dots (e.g. `".csv"`, `"..csv"`) has no extension and is returned
whole — CPython skips the leading-dot run when looking for a real stem. -/
def splitext_root_data (l : List Char) : List Char :=
  match lastDotIdx l with
  | none => l
  | some di => if (l.take di).any (fun c => c ≠ '.') then l.take di else l

/-- `os.path.splitext(file_name)[0]` on strings. -/
def splitext_root (s : String) : String := String.mk (splitext_root_data s.data)

/-- Python `s.endswith(ext)`. -/
def endswith (s ext : String) : Bool := List.isSuffixOf ext.data s.data

/-- The filter of the orchestrator: lower the file name, test the csv ending. -/
def considered (file_name : String) : Bool := endswith (strLower file_name) ".csv"

/-- `table_name = os.path.splitext(file_name)[0].lower()`. -/
def table_name_of (file_name : String) : String := strLower (splitext_root file_name)

/-- `table_id = f"{project_id}.{dataset_id}.{table_name}"`. -/
def table_id_of (project_id dataset_id file_name : String) : String :=
  project_id ++ "." ++ dataset_id ++ "." ++ table_name_of file_name

/-- `os.path.join(a, b)` (posix, one component): `b` wins when absolute,
otherwise a `/` separator is inserted unless `a` is empty or already ends
with one. -/
def path_join (a b : String) : String :=
  if b.data.head? = some '/' then b
  else if a = "" ∨ a.data.getLast? = some '/' then a ++ b
  else a ++ "/" ++ b

/-- Environment for one directory entry seen by `upload_all_csvs`: its name,
whether `upload_csv` completes without raising, and whether `os.remove`
completes without raising. -/
structure FileBehavior where
  file_name : String
  upload_ok : Bool
  remove_ok : Bool
  deriving DecidableEq, Repr

/-- Observable steps of the orchestrator loop, per file. -/
inductive OrchEvent where
  | uploadAttempt (file_path table_id : String)
  | uploadFailureLogged (file_name : String)
  | removeAttempt (file_path : String)
  | removeFailureLogged (file_name : String)
  deriving DecidableEq, Repr

/-- One iteration of the `for file_name in os.listdir(...)` loop:
skip non-CSV names; otherwise attempt the upload inside `try`, log on
exception (the `except Exception` swallows it), and in the `finally` block
always attempt `os.remove`, whose own exception is also swallowed. -/
def events_for (project_id dataset_id download_path : String) (f : FileBehavior) :
    List OrchEvent :=
  if considered f.file_name then
    let fp := path_join download_path f.file_name
    ([OrchEvent.uploadAttempt fp (table_id_of project_id dataset_id f.file_name)]
       ++ (if f.upload_ok then [] else [OrchEvent.uploadFailureLogged f.file_name]))
    ++ ([OrchEvent.removeAttempt fp]
       ++ (if f.remove_ok then [] else [OrchEvent.removeFailureLogged f.file_name]))
  else []

/-- `upload_all_csvs`: the event trace of the whole loop.  Because every per-file
exception is swallowed inside the iteration, the loop always proceeds to the
next file: the trace is the concatenation of the events of every file. -/
def upload_all_csvs (project_id dataset_id download_path : String)
    (files : List FileBehavior) : List OrchEvent :=
  files.foldl (fun acc f => acc ++ events_for project_id dataset_id download_path f) []

/-! ### Helper lemmas -/

theorem char_toNat_ofNat {n : Nat} (h : n.isValidChar) : (Char.ofNat n).toNat = n := by
  unfold Char.ofNat
  rw [dif_pos h]
  rfl

theorem toLower_eq_dot_iff (c : Char) : Char.toLower c = '.' ↔ c = '.' := by
  by_cases h : c.toNat ≥ 65 ∧ c.toNat ≤ 90
  · have hlow : Char.toLower c = Char.ofNat (c.toNat + 32) := by
      simp [Char.toLower, h]
    have h2 : (Char.ofNat (c.toNat + 32)).toNat = c.toNat + 32 :=
      char_toNat_ofNat (Or.inl (by omega))
    rw [hlow]
    constructor
    · intro hc
      rw [hc] at h2
      have h46 : ('.' : Char).toNat = 46 := by decide
      omega
    · intro hc
      subst hc
      exact absurd h (by decide)
  · have hlow : Char.toLower c = c := by
      simp [Char.toLower]
      omega
    rw [hlow]

theorem toLower_toLower (c : Char) : Char.toLower (Char.toLower c) = Char.toLower c := by
  by_cases h : c.toNat ≥ 65 ∧ c.toNat ≤ 90
  · have hlow : Char.toLower c = Char.ofNat (c.toNat + 32) := by
      simp [Char.toLower, h]
    have h2 : (Char.ofNat (c.toNat + 32)).toNat = c.toNat + 32 :=
      char_toNat_ofNat (Or.inl (by omega))
    rw [hlow]
    simp [Char.toLower]
    omega
  · have hlow : Char.toLower c = c := by
      simp [Char.toLower]
      omega
    rw [hlow, hlow]

theorem toUpper_toUpper (c : Char) : Char.toUpper (Char.toUpper c) = Char.toUpper c := by
  by_cases h : c.toNat ≥ 97 ∧ c.toNat ≤ 122
  · have hup : Char.toUpper c = Char.ofNat (c.toNat - 32) := by
      simp [Char.toUpper, h]
    have h2 : (Char.ofNat (c.toNat - 32)).toNat = c.toNat - 32 :=
      char_toNat_ofNat (Or.inl (by omega))
    rw [hup]
    simp [Char.toUpper]
    omega
  · have hup : Char.toUpper c = c := by
      simp [Char.toUpper]
      omega
    rw [hup, hup]

theorem strUpper_strUpper (s : String) : strUpper (strUpper s) = strUpper s := by
  unfold strUpper
  simp only [List.map_map]
  congr 1
  exact List.map_congr_left (fun c _ => toUpper_toUpper c)

theorem strLower_strLower (s : String) : strLower (strLower s) = strLower s := by
  unfold strLower
  simp only [List.map_map]
  congr 1
  exact List.map_congr_left (fun c _ => toLower_toLower c)

/-! ### Claims about the Type-Cast Resolver (C2, C10) -/

/-- Claim C2: for every destination field type tag, `_safe_cast_expr` yields a
hard `CAST` to STRING when the tag resolves to STRING (also when the tag is
unrecognized, via the `"STRING"` default), a fail-soft `SAFE_CAST` to the
resolved target for every other recognized tag, and for an unrecognized tag
its output is identical to its output for `"STRING"`. -/
theorem C2_cast_resolver (staging_alias col_name target_type : String) :
    ((castTargetsGet (strUpper target_type)).getD "STRING" = "STRING" →
      safe_cast_expr staging_alias col_name target_type =
        "CAST(" ++ staging_alias ++ "." ++ col_name ++ " AS STRING)" ++ (" AS " ++ col_name))
    ∧ (∀ tgt, castTargetsGet (strUpper target_type) = some tgt → tgt ≠ "STRING" →
      safe_cast_expr staging_alias col_name target_type =
        "SAFE_CAST(" ++ staging_alias ++ "." ++ col_name ++ " AS " ++ tgt ++ ")"
          ++ (" AS " ++ col_name))
    ∧ (castTargetsGet (strUpper target_type) = none →
      safe_cast_expr staging_alias col_name target_type =
        safe_cast_expr staging_alias col_name "STRING") := by
  refine ⟨fun h => ?_, fun tgt h hne => ?_, fun h => ?_⟩
  · simp [safe_cast_expr, h]
  · simp [safe_cast_expr, h, hne]
  · have hstr : castTargetsGet (strUpper "STRING") = some "STRING" := by decide
    simp [safe_cast_expr, h, hstr]

/-- Claim C2 witness at concrete inputs: a recognized non-STRING tag produces
a `SAFE_CAST`; an unrecognized tag behaves exactly like `"STRING"`. -/
theorem C2_cast_resolver_witness :
    safe_cast_expr "stg" "col" "INT64" =
      "SAFE_CAST(" ++ "stg" ++ "." ++ "col" ++ " AS " ++ "INT64" ++ ")" ++ (" AS " ++ "col")
    ∧ safe_cast_expr "stg" "col" "mystery" = safe_cast_expr "stg" "col" "STRING" := by
  constructor
  · exact (C2_cast_resolver "stg" "col" "INT64").2.1 "INT64" (by decide) (by decide)
  · exact (C2_cast_resolver "stg" "col" "mystery").2.2 (by decide)

/-- Claim C10: type-tag matching in the resolver is case-insensitive (the tag
is uppercased before the dict lookup, so any tag behaves exactly like its
uppercased form, e.g. `"int64"` like `"INT64"`), and the legacy alias tags
BOOLEAN, INTEGER and FLOAT produce exactly the same expressions as BOOL,
INT64 and FLOAT64 respectively. -/
theorem C10_alias_and_case_tags (staging_alias col_name : String) :
    (∀ target_type, safe_cast_expr staging_alias col_name target_type =
        safe_cast_expr staging_alias col_name (strUpper target_type))
    ∧ safe_cast_expr staging_alias col_name "int64" =
        safe_cast_expr staging_alias col_name "INT64"
    ∧ safe_cast_expr staging_alias col_name "BOOLEAN" =
        safe_cast_expr staging_alias col_name "BOOL"
    ∧ safe_cast_expr staging_alias col_name "INTEGER" =
        safe_cast_expr staging_alias col_name "INT64"
    ∧ safe_cast_expr staging_alias col_name "FLOAT" =
        safe_cast_expr staging_alias col_name "FLOAT64" := by
  refine ⟨fun target_type => ?_, ?_, ?_, ?_, ?_⟩
  · simp [safe_cast_expr, strUpper_strUpper]
  · have h1 : castTargetsGet (strUpper "int64") = some "INT64" := by decide
    have h2 : castTargetsGet (strUpper "INT64") = some "INT64" := by decide
    simp [safe_cast_expr, h1, h2]
  · have h1 : castTargetsGet (strUpper "BOOLEAN") = some "BOOL" := by decide
    have h2 : castTargetsGet (strUpper "BOOL") = some "BOOL" := by decide
    simp [safe_cast_expr, h1, h2]
  · have h1 : castTargetsGet (strUpper "INTEGER") = some "INT64" := by decide
    have h2 : castTargetsGet (strUpper "INT64") = some "INT64" := by decide
    simp [safe_cast_expr, h1, h2]
  · have h1 : castTargetsGet (strUpper "FLOAT") = some "FLOAT64" := by decide
    have h2 : castTargetsGet (strUpper "FLOAT64") = some "FLOAT64" := by decide
    simp [safe_cast_expr, h1, h2]

/-! ### Claim about the Table Existence Oracle (C5) -/

/-- Claim C5: `table_exists` returns `true` exactly when the metadata fetch
succeeds and `false` exactly when the fetch raises — any exception value
whatsoever, not only not-found.  The oracle is a total function into `Bool`:
in the embedding, a function that could propagate an exception would return
an `Except`, while `table_exists` absorbs every error branch of the fetch. -/
theorem C5_existence_oracle {ε τ : Type} (fetch : Except ε τ) :
    (table_exists fetch = true ↔ ∃ t, fetch = Except.ok t)
    ∧ (table_exists fetch = false ↔ ∃ e, fetch = Except.error e) := by
  cases fetch <;> simp [table_exists]

/-- Claim C5 witness: the oracle decides a concrete successful fetch and a
concrete failed fetch (with an arbitrary, non-not-found error value). -/
theorem C5_existence_oracle_witness :
    table_exists (Except.ok 7 : Except String Nat) = true
    ∧ table_exists (Except.error "permission denied" : Except String Nat) = false := by
  constructor
  · exact (C5_existence_oracle (Except.ok 7 : Except String Nat)).1.mpr ⟨7, rfl⟩
  · exact (C5_existence_oracle (Except.error "permission denied" : Except String Nat)).2.mpr
      ⟨"permission denied", rfl⟩

/-! ### Claims about the Ingestion Marker Setter (C7, C8) -/

theorem set_ingestion_rows_idem (date_value : String)
    (rows : List (Option String × Nat)) :
    set_ingestion_rows date_value (set_ingestion_rows date_value rows) =
      set_ingestion_rows date_value rows := by
  unfold set_ingestion_rows
  rw [List.map_map]
  apply List.map_congr_left
  intro r _
  by_cases hr : r.1 = none
  · simp [Function.comp, hr]
  · simp [Function.comp, hr]

/-- Claim C7: on a table carrying the marker column, the UPDATE of the setter
touches only rows whose marker is currently NULL: row count is preserved,
every row with a non-null marker is returned unchanged, and running the
setter twice with the same date equals running it once. -/
theorem C7_marker_setter_idempotent (t : TableState) (date_value : String)
    (h : has_ingestion_date_col t.schema = true) :
    (set_ingestion_date_if_exists t date_value).rows.length = t.rows.length
    ∧ (∀ (i : Nat) (r : Option String × Nat), t.rows[i]? = some r → r.1 ≠ none →
        (set_ingestion_date_if_exists t date_value).rows[i]? = some r)
    ∧ set_ingestion_date_if_exists (set_ingestion_date_if_exists t date_value) date_value
        = set_ingestion_date_if_exists t date_value := by
  have hset : set_ingestion_date_if_exists t date_value =
      { t with rows := set_ingestion_rows date_value t.rows } := by
    simp [set_ingestion_date_if_exists, h]
  refine ⟨?_, ?_, ?_⟩
  · rw [hset]
    simp [set_ingestion_rows]
  · intro i r hir hr
    rw [hset]
    simp [set_ingestion_rows, hir, hr]
  · rw [hset]
    simp [set_ingestion_date_if_exists, h, set_ingestion_rows_idem]

/-- Claim C7 witness: a two-row table (one unmarked row, one row already
marked with an earlier date) that carries the marker column — the marked row
is untouched and a second identical invocation changes nothing. -/
theorem C7_marker_setter_idempotent_witness :
    (set_ingestion_date_if_exists
        (TableState.mk [SchemaField.mk "Ingestion_date" "DATE"]
          [(none, 0), (some "2025-01-01", 1)]) "2025-10-12").rows.length = 2
    ∧ (set_ingestion_date_if_exists
        (TableState.mk [SchemaField.mk "Ingestion_date" "DATE"]
          [(none, 0), (some "2025-01-01", 1)]) "2025-10-12").rows[1]? =
        some (some "2025-01-01", 1)
    ∧ set_ingestion_date_if_exists
        (set_ingestion_date_if_exists
          (TableState.mk [SchemaField.mk "Ingestion_date" "DATE"]
            [(none, 0), (some "2025-01-01", 1)]) "2025-10-12") "2025-10-12"
      = set_ingestion_date_if_exists
          (TableState.mk [SchemaField.mk "Ingestion_date" "DATE"]
            [(none, 0), (some "2025-01-01", 1)]) "2025-10-12" := by
  have h := C7_marker_setter_idempotent
    (TableState.mk [SchemaField.mk "Ingestion_date" "DATE"]
      [(none, 0), (some "2025-01-01", 1)]) "2025-10-12" (by decide)
  exact ⟨h.1, h.2.1 1 (some "2025-01-01", 1) (by decide) (by decide), h.2.2⟩

/-- Claim C8: on a table whose schema lacks a column named exactly
`Ingestion_date` (case-sensitive comparison), the setter is a no-op: the
table state is unchanged, the only client call is the metadata fetch, and in
particular no UPDATE query is issued. -/
theorem C8_marker_setter_noop (t : TableState) (table_id date_value : String)
    (h : has_ingestion_date_col t.schema = false) :
    set_ingestion_date_if_exists t date_value = t
    ∧ set_ingestion_date_trace t.schema table_id date_value = [BQOp.getTable table_id]
    ∧ (∀ sql, BQOp.query sql ∉ set_ingestion_date_trace t.schema table_id date_value) := by
  refine ⟨?_, ?_, ?_⟩
  · simp [set_ingestion_date_if_exists, h]
  · simp [set_ingestion_date_trace, h]
  · intro sql
    simp [set_ingestion_date_trace, h]

/-- Claim C8 witness: a table whose only marker-like column is spelled
`ingestion_date` (wrong case) is left untouched and receives no UPDATE. -/
theorem C8_marker_setter_noop_witness :
    set_ingestion_date_if_exists
        (TableState.mk [SchemaField.mk "ingestion_date" "DATE"] [(none, 0)]) "2025-10-12"
      = TableState.mk [SchemaField.mk "ingestion_date" "DATE"] [(none, 0)]
    ∧ set_ingestion_date_trace [SchemaField.mk "ingestion_date" "DATE"]
        "p.d.t" "2025-10-12" = [BQOp.getTable "p.d.t"]
    ∧ BQOp.query (update_sql "p.d.t" "2025-10-12") ∉
        set_ingestion_date_trace [SchemaField.mk "ingestion_date" "DATE"]
          "p.d.t" "2025-10-12" := by
  have h := C8_marker_setter_noop
    (TableState.mk [SchemaField.mk "ingestion_date" "DATE"] [(none, 0)])
    "p.d.t" "2025-10-12" (by decide)
  exact ⟨h.1, h.2.1, h.2.2 (update_sql "p.d.t" "2025-10-12")⟩

/-! ### Claim about the generated select list (C1) -/

theorem foldl_append_singleton {α β : Type} (g : α → β) :
    ∀ (l : List α) (acc : List β),
      l.foldl (fun a x => a ++ [g x]) acc = acc ++ l.map g := by
  intro l
  induction l with
  | nil => intro acc; simp
  | cons x xs ih => intro acc; simp [ih]

theorem select_exprs_eq_map (tgt_schema : List SchemaField) (stg_names : List String) :
    select_exprs tgt_schema stg_names =
      (tgt_cols tgt_schema).map (select_expr_for tgt_schema stg_names) := by
  unfold select_exprs
  rw [foldl_append_singleton]
  rfl

theorem filter_name_eq_of_nodup (l : List SchemaField)
    (hn : (l.map (fun f => f.name)).Nodup) :
    ∀ f ∈ l, l.filter (fun g => g.name = f.name) = [f] := by
  induction l with
  | nil => intro f hf; cases hf
  | cons a as ih =>
    intro f hf
    simp only [List.map_cons, List.nodup_cons] at hn
    rcases hn with ⟨hna, hnas⟩
    rcases List.mem_cons.mp hf with rfl | hf2
    · rw [List.filter_cons_of_pos (by simp)]
      have hnil : as.filter (fun g => g.name = f.name) = [] := by
        rw [List.filter_eq_nil_iff]
        intro g hg
        simp only [decide_eq_true_eq]
        intro hgf
        exact hna (hgf ▸ List.mem_map_of_mem (fun x => x.name) hg)
      rw [hnil]
    · have hne : ¬ (a.name = f.name) := by
        intro haf
        exact hna (haf ▸ List.mem_map_of_mem (fun x => x.name) hf2)
      rw [List.filter_cons_of_neg (by simpa using hne)]
      exact ih hnas f hf2

theorem tgt_types_get_of_nodup (l : List SchemaField)
    (hn : (l.map (fun f => f.name)).Nodup) (f : SchemaField) (hf : f ∈ l) :
    tgt_types_get l f.name = f.field_type := by
  unfold tgt_types_get
  rw [filter_name_eq_of_nodup l hn f hf]
  rfl

theorem endswith_append (s t : String) : endswith (s ++ t) t = true := by
  simp [endswith]

theorem safe_cast_expr_endswith (staging_alias col_name target_type : String) :
    endswith (safe_cast_expr staging_alias col_name target_type)
      (" AS " ++ col_name) = true := by
  simp only [safe_cast_expr]
  split
  · exact endswith_append _ _
  · exact endswith_append _ _

/-- Claim C1: the generated select-expression list has exactly one entry per
destination field, in destination-schema order — the cast-resolver expression
when a staging column of exactly the same name exists, otherwise a literal
NULL cast to the resolved target type of the field; its length equals the
destination field count whatever the staging columns are, and entry `i` is
aliased (`... AS col`) to exactly the `i`-th name of the explicit INSERT
destination column list. -/
theorem C1_select_list_shape (tgt_schema : List SchemaField) (stg_names : List String)
    (hn : (tgt_schema.map (fun f => f.name)).Nodup) :
    (select_exprs tgt_schema stg_names).length = tgt_schema.length
    ∧ (∀ (i : Nat) (hi : i < tgt_schema.length),
        (select_exprs tgt_schema stg_names)[i]? =
          some (if (tgt_schema.get ⟨i, hi⟩).name ∈ stg_names then
              safe_cast_expr "stg" (tgt_schema.get ⟨i, hi⟩).name
                (tgt_schema.get ⟨i, hi⟩).field_type
            else
              "CAST(NULL AS "
                ++ (castTargetsGet (strUpper (tgt_schema.get ⟨i, hi⟩).field_type)).getD "STRING"
                ++ ")" ++ (" AS " ++ (tgt_schema.get ⟨i, hi⟩).name)))
    ∧ (∀ (i : Nat) (hi : i < tgt_schema.length), ∃ e,
        (select_exprs tgt_schema stg_names)[i]? = some e
        ∧ (tgt_cols tgt_schema)[i]? = some (tgt_schema.get ⟨i, hi⟩).name
        ∧ endswith e (" AS " ++ (tgt_schema.get ⟨i, hi⟩).name) = true) := by
  have hmap := select_exprs_eq_map tgt_schema stg_names
  have hlen : (select_exprs tgt_schema stg_names).length = tgt_schema.length := by
    rw [hmap]
    simp [tgt_cols]
  have hcols : ∀ (i : Nat) (hi : i < tgt_schema.length),
      (tgt_cols tgt_schema)[i]? = some (tgt_schema.get ⟨i, hi⟩).name := by
    intro i hi
    simp [tgt_cols, List.getElem?_map, List.getElem?_eq_getElem hi]
  have hval : ∀ (i : Nat) (hi : i < tgt_schema.length),
      (select_exprs tgt_schema stg_names)[i]? =
        some (if (tgt_schema.get ⟨i, hi⟩).name ∈ stg_names then
            safe_cast_expr "stg" (tgt_schema.get ⟨i, hi⟩).name
              (tgt_schema.get ⟨i, hi⟩).field_type
          else
            "CAST(NULL AS "
              ++ (castTargetsGet (strUpper (tgt_schema.get ⟨i, hi⟩).field_type)).getD "STRING"
              ++ ")" ++ (" AS " ++ (tgt_schema.get ⟨i, hi⟩).name)) := by
    intro i hi
    rw [hmap, List.getElem?_map, hcols i hi]
    have htype : tgt_types_get tgt_schema (tgt_schema[i].name) = tgt_schema[i].field_type :=
      tgt_types_get_of_nodup tgt_schema hn _ (List.get_mem tgt_schema i hi)
    simp [select_expr_for, htype]
  refine ⟨hlen, hval, ?_⟩
  intro i hi
  refine ⟨_, hval i hi, hcols i hi, ?_⟩
  split
  · exact safe_cast_expr_endswith _ _ _
  · exact endswith_append _ _

/-- Claim C1 witness: destination schema `(id INT64, total NUMERIC, when
TIMESTAMP)` against a staging schema providing `id`, `total` and an extra
column `noise`: three expressions, `when` becoming a typed NULL, with the
aliases aligned to the destination column list. -/
theorem C1_select_list_shape_witness :
    (select_exprs
        [SchemaField.mk "id" "INT64", SchemaField.mk "total" "NUMERIC",
         SchemaField.mk "when" "TIMESTAMP"] ["id", "total", "noise"]).length = 3
    ∧ (select_exprs
        [SchemaField.mk "id" "INT64", SchemaField.mk "total" "NUMERIC",
         SchemaField.mk "when" "TIMESTAMP"] ["id", "total", "noise"])[2]? =
        some ("CAST(NULL AS " ++ "TIMESTAMP" ++ ")" ++ (" AS " ++ "when")) := by
  have h := C1_select_list_shape
    [SchemaField.mk "id" "INT64", SchemaField.mk "total" "NUMERIC",
     SchemaField.mk "when" "TIMESTAMP"] ["id", "total", "noise"] (by decide)
  refine ⟨h.1, ?_⟩
  have h2 := h.2.1 2 (by decide)
  rw [h2]
  decide

/-! ### Claims about the effects of the Staging Merge Loader (C3, C4) -/

theorem staging_ne_target (target_table_id stamp : String) :
    staging_table_id target_table_id stamp ≠ target_table_id := by
  intro h
  have hd := congrArg (fun s => s.data.length) h
  have hlen : ((target_table_id.data ++ "__stg_".data) ++ stamp.data).length =
      target_table_id.data.length := hd
  have h6 : "__stg_".data.length = 6 := by decide
  simp [List.length_append, h6] at hlen

/-- Claim C3: the merge path never alters the destination schema — every
operation it issues that could change the schema or existence of a table targets
only the (distinct) staging identity, the only query it runs is the
INSERT-SELECT statement, and every generated select expression is the
expression for some destination column, so staging-only columns contribute
nothing to the statement. -/
theorem C3_destination_frame (target_table_id stamp : String)
    (tgt_schema stg_schema : List SchemaField) (insert_ok : Bool) :
    (∀ op ∈ append_via_staging_trace target_table_id stamp tgt_schema stg_schema insert_ok,
        alters_schema op target_table_id = false)
    ∧ (∀ sql, BQOp.query sql ∈
          append_via_staging_trace target_table_id stamp tgt_schema stg_schema insert_ok →
        sql = insert_sql target_table_id (staging_table_id target_table_id stamp)
          tgt_schema (stg_cols_set stg_schema))
    ∧ (∀ e ∈ select_exprs tgt_schema (stg_cols_set stg_schema),
        ∃ col ∈ tgt_cols tgt_schema,
          e = select_expr_for tgt_schema (stg_cols_set stg_schema) col) := by
  have hne := staging_ne_target target_table_id stamp
  refine ⟨?_, ?_, ?_⟩
  · intro op hop
    cases insert_ok
    · simp [append_via_staging_trace] at hop
      rcases hop with rfl | rfl | rfl | rfl <;> simp_all [alters_schema]
    · simp [append_via_staging_trace] at hop
      rcases hop with rfl | rfl | rfl | rfl | rfl <;> simp_all [alters_schema]
  · intro sql hq
    cases insert_ok <;> simp [append_via_staging_trace] at hq <;> exact hq
  · rw [select_exprs_eq_map]
    intro e he
    rcases List.mem_map.mp he with ⟨col, hcol, rfl⟩
    exact ⟨col, hcol, rfl⟩

/-- Claim C3 witness at a concrete merge (existing destination `id INT64`,
staging bringing an extra column): the staging load — the one truncating
load this path performs — does not touch the destination, and the staging
identity differs from the destination identity. -/
theorem C3_destination_frame_witness :
    alters_schema
      (BQOp.loadTable (staging_table_id "p.d.orders" "20251012000000") true true)
      "p.d.orders" = false := by
  exact (C3_destination_frame "p.d.orders" "20251012000000"
      [SchemaField.mk "id" "INT64"]
      [SchemaField.mk "id" "INT64", SchemaField.mk "extra" "STRING"] true).1
    (BQOp.loadTable (staging_table_id "p.d.orders" "20251012000000") true true)
    (by simp [append_via_staging_trace])

/-- Claim C4 as stated is false on this code: when the INSERT-SELECT raises,
`delete_table` is never reached (there is no try/finally around the INSERT),
so no drop of the staging table is attempted at all. -/
theorem C4_counterexample :
    ¬ ∃ not_found_ok, BQOp.deleteTable
        (staging_table_id "p.d.orders" "20251012000000") not_found_ok ∈
      append_via_staging_trace "p.d.orders" "20251012000000"
        [SchemaField.mk "id" "INT64"] [SchemaField.mk "id" "INT64"] false := by
  decide

/-- Claim C4 (amended): the drop of the staging table is attempted — as the
final operation, with `not_found_ok = True` so an already-absent staging
table is not an error — when the INSERT-SELECT step succeeds; when the
INSERT-SELECT raises, the function aborts and no drop is attempted. -/
theorem C4_staging_drop (target_table_id stamp : String)
    (tgt_schema stg_schema : List SchemaField) :
    ((append_via_staging_trace target_table_id stamp tgt_schema stg_schema true).getLast? =
        some (BQOp.deleteTable (staging_table_id target_table_id stamp) true))
    ∧ (∀ tbl not_found_ok, BQOp.deleteTable tbl not_found_ok ∉
        append_via_staging_trace target_table_id stamp tgt_schema stg_schema false) := by
  constructor
  · simp [append_via_staging_trace]
  · intro tbl not_found_ok hmem
    simp [append_via_staging_trace] at hmem

/-- Claim C4 witness: at a concrete merge, the successful path ends in the
not-found-ok drop of the staging table, and the failing path contains no
drop. -/
theorem C4_staging_drop_witness :
    ((append_via_staging_trace "p.d.orders" "20251012000000"
        [SchemaField.mk "id" "INT64"] [SchemaField.mk "id" "INT64"] true).getLast? =
      some (BQOp.deleteTable (staging_table_id "p.d.orders" "20251012000000") true))
    ∧ BQOp.deleteTable (staging_table_id "p.d.orders" "20251012000000") true ∉
        append_via_staging_trace "p.d.orders" "20251012000000"
          [SchemaField.mk "id" "INT64"] [SchemaField.mk "id" "INT64"] false := by
  exact ⟨(C4_staging_drop "p.d.orders" "20251012000000"
      [SchemaField.mk "id" "INT64"] [SchemaField.mk "id" "INT64"]).1,
    (C4_staging_drop "p.d.orders" "20251012000000"
      [SchemaField.mk "id" "INT64"] [SchemaField.mk "id" "INT64"]).2
      (staging_table_id "p.d.orders" "20251012000000") true⟩

/-! ### Claim about the Batch Orchestrator (C6) -/

theorem foldl_append_list {α β : Type} (g : α → List β) :
    ∀ (l : List α) (acc : List β),
      l.foldl (fun a x => a ++ g x) acc = acc ++ (l.map g).flatten := by
  intro l
  induction l with
  | nil => intro acc; simp
  | cons x xs ih => intro acc; simp [ih]

/-- Claim C6: for every batch run, every considered file — whatever the
success or failure of the upload and removal of every file — has its upload
attempted and its local-copy removal attempted: the per-file exception is
caught at the orchestrator boundary, so no per-file failure removes a later
(or its own) set of file events from the run. -/
theorem C6_orchestrator_isolation (project_id dataset_id download_path : String)
    (files : List FileBehavior) (i : Nat) (hi : i < files.length)
    (hc : considered files[i].file_name = true) :
    OrchEvent.uploadAttempt (path_join download_path files[i].file_name)
        (table_id_of project_id dataset_id files[i].file_name)
      ∈ upload_all_csvs project_id dataset_id download_path files
    ∧ OrchEvent.removeAttempt (path_join download_path files[i].file_name)
      ∈ upload_all_csvs project_id dataset_id download_path files := by
  have hjoin : upload_all_csvs project_id dataset_id download_path files =
      (files.map (events_for project_id dataset_id download_path)).flatten := by
    unfold upload_all_csvs
    rw [foldl_append_list]
    rfl
  have hsub : ∀ e ∈ events_for project_id dataset_id download_path files[i],
      e ∈ upload_all_csvs project_id dataset_id download_path files := by
    intro e he
    rw [hjoin]
    exact List.mem_flatten.mpr
      ⟨_, List.mem_map_of_mem _ (List.get_mem files i hi), he⟩
  constructor
  · apply hsub
    cases hub : files[i].upload_ok <;>
      cases hrb : files[i].remove_ok <;>
      simp [events_for, hc, hub, hrb]
  · apply hsub
    cases hub : files[i].upload_ok <;>
      cases hrb : files[i].remove_ok <;>
      simp [events_for, hc, hub, hrb]

/-- Claim C6 witness — the batch scenario of the spec: three CSVs where the second
raises mid-processing; the first and third files are still uploaded, and the
failing second file still has its local deletion attempted. -/
theorem C6_orchestrator_isolation_witness :
    OrchEvent.uploadAttempt (path_join "dl" "a.csv") (table_id_of "p" "d" "a.csv") ∈
      upload_all_csvs "p" "d" "dl"
        [FileBehavior.mk "a.csv" true true, FileBehavior.mk "b.csv" false true,
         FileBehavior.mk "c.csv" true true]
    ∧ OrchEvent.uploadAttempt (path_join "dl" "c.csv") (table_id_of "p" "d" "c.csv") ∈
      upload_all_csvs "p" "d" "dl"
        [FileBehavior.mk "a.csv" true true, FileBehavior.mk "b.csv" false true,
         FileBehavior.mk "c.csv" true true]
    ∧ OrchEvent.removeAttempt (path_join "dl" "b.csv") ∈
      upload_all_csvs "p" "d" "dl"
        [FileBehavior.mk "a.csv" true true, FileBehavior.mk "b.csv" false true,
         FileBehavior.mk "c.csv" true true] := by
  refine ⟨?_, ?_, ?_⟩
  · exact (C6_orchestrator_isolation "p" "d" "dl"
      [FileBehavior.mk "a.csv" true true, FileBehavior.mk "b.csv" false true,
       FileBehavior.mk "c.csv" true true] 0 (by decide) (by decide)).1
  · exact (C6_orchestrator_isolation "p" "d" "dl"
      [FileBehavior.mk "a.csv" true true, FileBehavior.mk "b.csv" false true,
       FileBehavior.mk "c.csv" true true] 2 (by decide) (by decide)).1
  · exact (C6_orchestrator_isolation "p" "d" "dl"
      [FileBehavior.mk "a.csv" true true, FileBehavior.mk "b.csv" false true,
       FileBehavior.mk "c.csv" true true] 1 (by decide) (by decide)).2

/-! ### Claim about the filename-to-table contract (C9) -/

theorem any_ne_dot_map_toLower (m : List Char) :
    (m.map Char.toLower).any (fun c => c ≠ '.') = m.any (fun c => c ≠ '.') := by
  induction m with
  | nil => rfl
  | cons c cs ih =>
    simp only [List.map_cons, List.any_cons, ih]
    congr 1
    by_cases h : c = '.'
    · subst h
      rfl
    · have h2 : Char.toLower c ≠ '.' := fun hh => h ((toLower_eq_dot_iff c).mp hh)
      simp [h, h2]

theorem lastDotIdx_append_some (a b : List Char) (i : Nat)
    (h : lastDotIdx b = some i) :
    lastDotIdx (a ++ b) = some (a.length + i) := by
  induction a with
  | nil => simpa using h
  | cons c cs ih =>
    have hstep : lastDotIdx (c :: (cs ++ b)) =
        (match lastDotIdx (cs ++ b) with
          | some j => some (j + 1)
          | none => if c = '.' then some 0 else none) := rfl
    show lastDotIdx (c :: (cs ++ b)) = some ((c :: cs).length + i)
    rw [hstep, ih]
    show some (cs.length + i + 1) = some ((c :: cs).length + i)
    congr 1
    simp only [List.length_cons]
    omega

theorem lastDotIdx_map_toLower (l : List Char) :
    lastDotIdx (l.map Char.toLower) = lastDotIdx l := by
  induction l with
  | nil => rfl
  | cons c cs ih =>
    simp only [List.map_cons, lastDotIdx, ih]
    cases h : lastDotIdx cs with
    | some i => rfl
    | none =>
      by_cases hc : c = '.'
      · subst hc
        rfl
      · have h2 : Char.toLower c ≠ '.' := fun hh => hc ((toLower_eq_dot_iff c).mp hh)
        simp [hc, h2]

theorem splitext_root_data_map_toLower (l : List Char) :
    splitext_root_data (l.map Char.toLower) = (splitext_root_data l).map Char.toLower := by
  unfold splitext_root_data
  rw [lastDotIdx_map_toLower]
  cases h : lastDotIdx l with
  | none => rfl
  | some di =>
    dsimp only
    rw [← List.map_take, any_ne_dot_map_toLower, apply_ite (List.map Char.toLower)]

theorem lastDotIdx_of_map_dotcsv (b : List Char)
    (h : b.map Char.toLower = ['.', 'c', 's', 'v']) :
    lastDotIdx b = some 0 := by
  cases b with
  | nil => simp at h
  | cons b0 t0 =>
  cases t0 with
  | nil => simp at h
  | cons b1 t1 =>
  cases t1 with
  | nil => simp at h
  | cons b2 t2 =>
  cases t2 with
  | nil => simp at h
  | cons b3 t3 =>
  cases t3 with
  | cons b4 t4 => simp at h
  | nil =>
    simp only [List.map_cons, List.map_nil, List.cons.injEq, and_true] at h
    obtain ⟨h0, h1, h2, h3⟩ := h
    have hb0 : b0 = '.' := (toLower_eq_dot_iff b0).mp h0
    have hb1 : b1 ≠ '.' := by
      intro hh
      subst hh
      exact absurd h1 (by decide)
    have hb2 : b2 ≠ '.' := by
      intro hh
      subst hh
      exact absurd h2 (by decide)
    have hb3 : b3 ≠ '.' := by
      intro hh
      subst hh
      exact absurd h3 (by decide)
    subst hb0
    simp [lastDotIdx, hb1, hb2, hb3]

theorem considered_iff (n : String) :
    considered n = true ↔
      4 ≤ n.data.length ∧
        strLower (String.mk (n.data.drop (n.data.length - 4))) = ".csv" := by
  have h4 : (".csv").data.length = 4 := by decide
  constructor
  · intro h
    have hs : (".csv").data <:+ (strLower n).data := by
      simpa [considered, endswith] using h
    have hlen : 4 ≤ n.data.length := by
      have hle := hs.length_le
      rw [h4] at hle
      simpa [strLower] using hle
    refine ⟨hlen, ?_⟩
    have hdrop := List.suffix_iff_eq_drop.mp hs
    apply String.ext
    show (n.data.drop (n.data.length - 4)).map Char.toLower = (".csv").data
    rw [List.map_drop, hdrop]
    congr 1
    simp [strLower, h4]
  · rintro ⟨hlen, heq⟩
    have hdata : (n.data.drop (n.data.length - 4)).map Char.toLower = (".csv").data :=
      congrArg String.data heq
    have hs : (".csv").data <:+ (strLower n).data := by
      rw [List.suffix_iff_eq_drop]
      show (".csv").data = ((strLower n).data).drop ((strLower n).data.length - (".csv").data.length)
      rw [h4]
      show (".csv").data = (n.data.map Char.toLower).drop ((n.data.map Char.toLower).length - 4)
      rw [List.length_map, ← List.map_drop, hdata]
    simpa [considered, endswith] using hs

theorem splitext_root_take (n : String)
    (hc : considered n = true)
    (ha : (n.data.take (n.data.length - 4)).any (fun c => c ≠ '.') = true) :
    splitext_root_data n.data = n.data.take (n.data.length - 4) := by
  obtain ⟨hlen, heq⟩ := (considered_iff n).mp hc
  have hdata : (n.data.drop (n.data.length - 4)).map Char.toLower = (".csv").data :=
    congrArg String.data heq
  have hcsv : (".csv").data = ['.', 'c', 's', 'v'] := by decide
  have h0 : lastDotIdx (n.data.drop (n.data.length - 4)) = some 0 :=
    lastDotIdx_of_map_dotcsv _ (by rw [hdata, hcsv])
  have hidx : lastDotIdx n.data = some (n.data.length - 4) := by
    have happ := lastDotIdx_append_some (n.data.take (n.data.length - 4))
      (n.data.drop (n.data.length - 4)) 0 h0
    rw [List.take_append_drop] at happ
    have hlt : (n.data.take (n.data.length - 4)).length = n.data.length - 4 := by
      rw [List.length_take]
      omega
    rw [happ, hlt, Nat.add_zero]
  unfold splitext_root_data
  rw [hidx]
  dsimp only
  rw [if_pos ha]

theorem table_name_of_lower_eq (n : String) :
    table_name_of n = table_name_of (strLower n) := by
  apply String.ext
  show (splitext_root_data n.data).map Char.toLower =
    (splitext_root_data ((strLower n).data)).map Char.toLower
  have hd : (strLower n).data = n.data.map Char.toLower := rfl
  rw [hd, splitext_root_data_map_toLower, List.map_map]
  exact (List.map_congr_left (fun c _ => toLower_toLower c)).symm

/-- Claim C9: a directory entry is considered exactly when its name ends,
case-insensitively, with `.csv` (its last four characters lowercase to
`.csv`); the derived destination identity is
`<project>.<dataset>.<lowercased stem>`, where for every considered name
with a non-dot character in its stem the stem is the name with the final
four-character extension stripped; and two names equal up to letter case
are considered alike and map to the same destination table. -/
theorem C9_filename_contract (project_id dataset_id : String) (n n2 : String) :
    (considered n = true ↔
      4 ≤ n.data.length ∧
        strLower (String.mk (n.data.drop (n.data.length - 4))) = ".csv")
    ∧ (strLower n = strLower n2 →
        considered n = considered n2
        ∧ table_id_of project_id dataset_id n = table_id_of project_id dataset_id n2)
    ∧ (considered n = true →
        (n.data.take (n.data.length - 4)).any (fun c => c ≠ '.') = true →
        table_id_of project_id dataset_id n =
          project_id ++ "." ++ dataset_id ++ "."
            ++ strLower (String.mk (n.data.take (n.data.length - 4)))) := by
  refine ⟨considered_iff n, fun hl => ⟨?_, ?_⟩, fun hc ha => ?_⟩
  · show endswith (strLower n) ".csv" = endswith (strLower n2) ".csv"
    rw [hl]
  · unfold table_id_of
    congr 1
    rw [table_name_of_lower_eq n, table_name_of_lower_eq n2, hl]
  · unfold table_id_of
    congr 1
    unfold table_name_of splitext_root
    rw [splitext_root_take n hc ha]

/-- Claim C9 witness: `Orders.CSV` is considered, maps to the same
destination as `orders.csv`, and its destination name is the lowercased
extension-stripped stem `orders`. -/
theorem C9_filename_contract_witness :
    considered "Orders.CSV" = true
    ∧ table_id_of "p" "d" "Orders.CSV" = table_id_of "p" "d" "orders.csv"
    ∧ table_id_of "p" "d" "Orders.CSV" =
        "p" ++ "." ++ "d" ++ "."
          ++ strLower (String.mk (("Orders.CSV" : String).data.take
              (("Orders.CSV" : String).data.length - 4))) := by
  refine ⟨?_, ?_, ?_⟩
  · exact (C9_filename_contract "p" "d" "Orders.CSV" "orders.csv").1.mpr (by decide)
  · exact ((C9_filename_contract "p" "d" "Orders.CSV" "orders.csv").2.1 (by decide)).2
  · exact (C9_filename_contract "p" "d" "Orders.CSV" "x").2.2 (by decide) (by decide)

end BQ
